import Mathlib

/-!
Shallow embedding of the inventory-management backend (a FastAPI CRUD layer
over a relational store, plus a voice-agent cart/checkout state machine).
Quantities and ids are modelled as integers, monetary amounts as rationals,
the two relevant tables as lists of rows, and each handler as a function
from store state (and arguments) to a structured result plus the new state.
-/

namespace VoiceAssistant

/-- A row of the stock_items table: id, item_name, quantity, unit and an
optional default price column. -/
structure StockRow where
  id : Int
  item_name : String
  quantity : Int
  unit : String
  price : Option ℚ
deriving Repr, DecidableEq

/-- A row of the item_variants table: id, owning stock_item_id, variant
label, quantity, unit and price. -/
structure VariantRow where
  id : Int
  stock_item_id : Int
  variant : String
  quantity : Int
  unit : String
  price : ℚ
deriving Repr, DecidableEq

/-- The relational store state: the stock_items and item_variants tables,
plus the id sequence backing stock_items inserts. -/
structure DB where
  stock_items : List StockRow
  item_variants : List VariantRow
  next_stock_id : Int
deriving Repr, DecidableEq

/-- Python str.lower / SQL LOWER restricted to ASCII, written over the
character list so that it evaluates inside the kernel. -/
def pyLower (s : String) : String := ⟨s.data.map Char.toLower⟩

/-- Whitespace characters stripped by Python str.strip / SQL TRIM. -/
def isPyWS (c : Char) : Bool := c == ' ' || c == '\t' || c == '\n' || c == '\r'

/-- Python str.strip / SQL TRIM: drop whitespace from both ends. -/
def pyStrip (s : String) : String :=
  ⟨((s.data.dropWhile isPyWS).reverse.dropWhile isPyWS).reverse⟩

/-- ITEM_MAPPINGS from tool.py: common item variations mapped to database
item names. -/
def ITEM_MAPPINGS : List (String × String) :=
  [("cola", "Coke"), ("soda", "Coke"), ("coke", "Coke"),
   ("coca cola", "Coke"), ("coca-cola", "Coke"),
   ("chips", "Lays"), ("potato chips", "Lays"), ("lays", "Lays"),
   ("biscuit", "Bisckets"), ("cookies", "Bisckets"),
   ("biscuits", "Bisckets"), ("bisckets", "Bisckets")]

/-- VARIANT_MAPPINGS from tool.py: size/type variations mapped to database
variant labels. -/
def VARIANT_MAPPINGS : List (String × String) :=
  [("regular", "Regular"), ("normal", "Regular"), ("small", "Regular"),
   ("half liter", "Half Liter"), ("half litre", "Half Liter"),
   ("500ml", "Half Liter"), ("medium", "Half Liter"),
   ("1.5 liter", "1.5 Liter"), ("1.5 litre", "1.5 Liter"),
   ("1500ml", "1.5 Liter"), ("large", "1.5 Liter"), ("big", "1.5 Liter")]

/-- CATEGORY_MAPPINGS from tool.py: category variations mapped to database
category names. -/
def CATEGORY_MAPPINGS : List (String × String) :=
  [("drink", "Drinks"), ("drinks", "Drinks"), ("beverage", "Drinks"),
   ("beverages", "Drinks"), ("snack", "Snacks"), ("snacks", "Snacks"),
   ("chips", "Snacks"), ("biscuit", "Biscuits"), ("biscuits", "Biscuits"),
   ("cookie", "Biscuits"), ("cookies", "Biscuits")]

/-- InventoryAssistant._map_item_name: lower-case and strip the input, look
it up in ITEM_MAPPINGS, fall back to the original input. -/
def mapItemName (item_name : String) : String :=
  let item_lower := pyStrip (pyLower item_name)
  (ITEM_MAPPINGS.lookup item_lower).getD item_name

/-- InventoryAssistant._map_variant_name: lower-case and strip the input,
look it up in VARIANT_MAPPINGS, fall back to the original input. -/
def mapVariantName (variant_name : String) : String :=
  let variant_lower := pyStrip (pyLower variant_name)
  (VARIANT_MAPPINGS.lookup variant_lower).getD variant_name

/-- InventoryAssistant._map_category_name: lower-case and strip the input,
look it up in CATEGORY_MAPPINGS, fall back to the original input. -/
def mapCategoryName (category_name : String) : String :=
  let category_lower := pyStrip (pyLower category_name)
  (CATEGORY_MAPPINGS.lookup category_lower).getD category_name

/-- The three kinds of free-text name handled by the normalizer. -/
inductive MapKind where
  | item
  | variant
  | category
deriving Repr, DecidableEq

/-- The fixed mapping table used for each kind of name. -/
def mappingTable : MapKind → List (String × String)
  | .item => ITEM_MAPPINGS
  | .variant => VARIANT_MAPPINGS
  | .category => CATEGORY_MAPPINGS

/-- The name normalizer: dispatch on the kind to the corresponding
_map_*_name helper of tool.py. -/
def normalize : MapKind → String → String
  | .item, s => mapItemName s
  | .variant, s => mapVariantName s
  | .category, s => mapCategoryName s

/-- SELECT first row of stock_items matching an id (fetchrow on WHERE
id = $1). -/
def findStockById (db : DB) (item_id : Int) : Option StockRow :=
  db.stock_items.find? (fun r => r.id == item_id)

/-- SELECT first row of item_variants matching an id (fetchval on WHERE
id = $1). -/
def findVariantById (db : DB) (variant_id : Int) : Option VariantRow :=
  db.item_variants.find? (fun v => v.id == variant_id)

/-- All item_variants rows owned by a given stock item (join on
stock_item_id). -/
def variantsOf (db : DB) (stock_item_id : Int) : List VariantRow :=
  db.item_variants.filter (fun v => v.stock_item_id == stock_item_id)

/-- GET /stocks/id (main.py get_stock_by_id): the first row with the id, or
none for the 404 case. -/
def get_stock_by_id (db : DB) (item_id : Int) : Option StockRow :=
  findStockById db item_id

/-- Result of POST /stocks (main.py add_stock). -/
inductive CreateResult where
  | conflict
  | created (row : StockRow)
deriving Repr, DecidableEq

/-- POST /stocks (main.py add_stock): reject when an existing item_name
matches case-insensitively, else insert a new row with the next generated
id and return it. The Pydantic model constrains quantity to be nonnegative
before the handler runs. -/
def add_stock (db : DB) (item_name : String) (quantity : Int) (unit : String) :
    CreateResult × DB :=
  if db.stock_items.any (fun r => pyLower r.item_name == pyLower item_name) then
    (.conflict, db)
  else
    let row : StockRow := ⟨db.next_stock_id, item_name, quantity, unit, none⟩
    (.created row,
     { db with stock_items := db.stock_items ++ [row],
               next_stock_id := db.next_stock_id + 1 })

/-- The PUT /stocks/id request body: any subset of the three updatable
fields. -/
structure StockItemUpdate where
  item_name : Option String
  quantity : Option Int
  unit : Option String
deriving Repr, DecidableEq

/-- True when the update request supplies none of the three fields. -/
def noUpdateFields (u : StockItemUpdate) : Bool :=
  u.item_name.isNone && u.quantity.isNone && u.unit.isNone

/-- Apply the supplied fields of an update to a row, keeping unsupplied
fields unchanged (the dynamic SET clause of update_stock). -/
def applyUpdate (u : StockItemUpdate) (r : StockRow) : StockRow :=
  { r with item_name := u.item_name.getD r.item_name,
           quantity := u.quantity.getD r.quantity,
           unit := u.unit.getD r.unit }

/-- Result of PUT /stocks/id (main.py update_stock). -/
inductive UpdateResult where
  | notFound
  | invalidNoFields
  | updated (row : StockRow)
deriving Repr, DecidableEq

/-- PUT /stocks/id (main.py update_stock): 404 when the id is absent, 400
when no fields are supplied, else update only the supplied fields of the
rows matching the id and return the new state of the (first) updated row. -/
def update_stock (db : DB) (item_id : Int) (u : StockItemUpdate) :
    UpdateResult × DB :=
  match findStockById db item_id with
  | none => (.notFound, db)
  | some r0 =>
    if noUpdateFields u then (.invalidNoFields, db)
    else
      (.updated (applyUpdate u r0),
       { db with stock_items :=
           db.stock_items.map (fun r => if r.id == item_id then applyUpdate u r else r) })

/-- Result of POST /stocks/id/add-quantity (main.py
add_quantity_to_stock). -/
inductive AddQtyResult where
  | notFound
  | updated (row : StockRow)
deriving Repr, DecidableEq

/-- POST /stocks/id/add-quantity (main.py add_quantity_to_stock): increment
the quantity of the rows matching the id by the delta, returning the new
state of the (first) updated row; 404 when the id is absent. The Pydantic
model constrains the delta to be positive before the handler runs. -/
def add_quantity_to_stock (db : DB) (item_id : Int) (quantity_to_add : Int) :
    AddQtyResult × DB :=
  match findStockById db item_id with
  | none => (.notFound, db)
  | some r0 =>
    (.updated { r0 with quantity := r0.quantity + quantity_to_add },
     { db with stock_items :=
         db.stock_items.map (fun r =>
           if r.id == item_id then { r with quantity := r.quantity + quantity_to_add } else r) })

/-- Result of POST /purchase (main.py purchase_item). -/
inductive PurchaseResult where
  | notFound
  | insufficientStock (available requested : Int)
  | ok (item_name : String) (purchased remaining : Int)
deriving Repr, DecidableEq

/-- POST /purchase (main.py purchase_item): inside one transaction, read
the current row, 404 when absent, 400 when the available quantity is below
the request, else write the decremented quantity and return it. The
Pydantic model constrains the requested quantity to be positive before the
handler runs. -/
def purchase_item (db : DB) (item_id : Int) (quantity : Int) :
    PurchaseResult × DB :=
  match findStockById db item_id with
  | none => (.notFound, db)
  | some row =>
    if row.quantity < quantity then
      (.insufficientStock row.quantity quantity, db)
    else
      let newQ := row.quantity - quantity
      (.ok row.item_name quantity newQ,
       { db with stock_items :=
           db.stock_items.map (fun r =>
             if r.id == item_id then { r with quantity := newQ } else r) })


/-- A joined row of the LEFT JOIN between stock_items and item_variants on
stock_item_id: a stock row together with one of its variant rows, or with
none when it owns no variant rows. -/
structure JoinedRow where
  s : StockRow
  v : Option VariantRow
deriving Repr, DecidableEq

/-- The joined rows contributed by one stock item in the LEFT JOIN: one row
per owned variant, or a single row with no variant. -/
def joinOne (db : DB) (s : StockRow) : List JoinedRow :=
  if (variantsOf db s.id).isEmpty then [⟨s, none⟩]
  else (variantsOf db s.id).map (fun v => ⟨s, some v⟩)

/-- The LEFT JOIN of stock_items with item_variants on s.id =
v.stock_item_id, in table order. -/
def joinRows (db : DB) : List JoinedRow :=
  db.stock_items.flatMap (joinOne db)

/-- The name condition of the voice-tool queries: LOWER(TRIM(s.item_name))
equals LOWER(TRIM(input)). -/
def nameMatches (s : StockRow) (needle : String) : Bool :=
  pyLower (pyStrip s.item_name) == pyLower (pyStrip needle)

/-- The variant condition of the find_query: v.variant IS NULL OR
LOWER(TRIM(v.variant)) equals LOWER(TRIM(input)). -/
def variantCond (jr : JoinedRow) (needle : String) : Bool :=
  match jr.v with
  | none => true
  | some v => pyLower (pyStrip v.variant) == pyLower (pyStrip needle)

/-- fetchrow of the find_query of add_to_cart: the first joined row whose
item name matches and whose variant is null or matches. -/
def resolveCartRow (db : DB) (mappedItem mappedVariant : String) :
    Option JoinedRow :=
  ((joinRows db).filter (fun jr =>
    nameMatches jr.s mappedItem && variantCond jr mappedVariant)).head?

/-- The variants_query used for the helpful error listing: every joined row
matching the item name, as the pair of COALESCE(v.variant, Default) and
COALESCE(v.price, s.price). -/
def variantOptions (db : DB) (mappedItem : String) : List (String × Option ℚ) :=
  ((joinRows db).filter (fun jr => nameMatches jr.s mappedItem)).map (fun jr =>
    match jr.v with
    | none => ("Default", jr.s.price)
    | some v => (v.variant, some v.price))

/-- COALESCE(v.variant, Default) on a joined row. -/
def coalVariant (jr : JoinedRow) : String :=
  match jr.v with
  | none => "Default"
  | some v => v.variant

/-- COALESCE(v.quantity, s.quantity) on a joined row. -/
def coalQuantity (jr : JoinedRow) : Int :=
  match jr.v with
  | none => jr.s.quantity
  | some v => v.quantity

/-- COALESCE(v.unit, s.unit) on a joined row. -/
def coalUnit (jr : JoinedRow) : String :=
  match jr.v with
  | none => jr.s.unit
  | some v => v.unit

/-- COALESCE(v.price, 0) on a joined row. -/
def coalPrice (jr : JoinedRow) : ℚ :=
  match jr.v with
  | none => 0
  | some v => v.price

/-- An in-memory cart line, snapshotting the fields of the cart_item dict
built by add_to_cart. -/
structure CartLine where
  item_name : String
  variant : String
  quantity : Int
  unit : String
  price_per_unit : ℚ
  total_price : ℚ
  variant_id : Option Int
  stock_item_id : Int
deriving Repr, DecidableEq

/-- The cart_item dict appended by add_to_cart for a resolved joined row
and a requested quantity. -/
def mkCartLine (jr : JoinedRow) (quantity : Int) : CartLine :=
  { item_name := jr.s.item_name
    variant := coalVariant jr
    quantity := quantity
    unit := coalUnit jr
    price_per_unit := coalPrice jr
    total_price := coalPrice jr * quantity
    variant_id := jr.v.map (fun v => v.id)
    stock_item_id := jr.s.id }

/-- Result of the voice tool add_to_cart. -/
inductive AddToCartResult where
  | notFoundItem
  | notFoundVariant (options : List (String × Option ℚ))
  | insufficient (available : Int) (unit item_name variantLabel : String)
  | added (line : CartLine) (cartTotal : ℚ)
deriving Repr, DecidableEq

/-- The variant-argument preprocessing of add_to_cart: map the variant name
when the argument is non-blank, else use Default. -/
def mappedVariantArg (variant : String) : String :=
  if pyStrip variant == "" then "Default" else mapVariantName variant

/-- The voice tool add_to_cart: resolve the normalized item and variant to
a joined row; report the item or variant as not found; fail when the
resolved row's live quantity is below the request; else append a cart line
and report it with the new cart total. The store is never written. -/
def add_to_cart (db : DB) (cart : List CartLine) (item_name : String)
    (quantity : Int) (variant : String) : AddToCartResult × List CartLine :=
  let mappedItem := mapItemName item_name
  let mappedVariant := mappedVariantArg variant
  match resolveCartRow db mappedItem mappedVariant with
  | none =>
    let opts := variantOptions db mappedItem
    if opts.isEmpty then (.notFoundItem, cart) else (.notFoundVariant opts, cart)
  | some jr =>
    if coalQuantity jr < quantity then
      (.insufficient (coalQuantity jr) (coalUnit jr) jr.s.item_name (coalVariant jr),
       cart)
    else
      let line := mkCartLine jr quantity
      let cart2 := cart ++ [line]
      (.added line ((cart2.map (fun l => l.total_price)).sum), cart2)

/-- The outcome class of an add_to_cart result, erasing payloads. -/
def resultCase : AddToCartResult → Nat
  | .notFoundItem => 0
  | .notFoundVariant _ => 1
  | .insufficient _ _ _ _ => 2
  | .added _ _ => 3

/-- True exactly when an add_to_cart result is a success. -/
def isAdded : AddToCartResult → Bool
  | .added _ _ => true
  | _ => false

/-- One reported row of get_item_variants. -/
structure VariantInfo where
  item_name : String
  variant : String
  quantity : Int
  unit : String
  price : ℚ
deriving Repr, DecidableEq

/-- The rows of the get_item_variants query before ordering: each
name-matching joined row with COALESCE(v.variant, Default),
COALESCE(v.quantity, s.quantity), COALESCE(v.unit, s.unit) and
COALESCE(v.price, 0). -/
def itemVariantRows (db : DB) (mappedItem : String) : List VariantInfo :=
  ((joinRows db).filter (fun jr => nameMatches jr.s mappedItem)).map (fun jr =>
    ⟨jr.s.item_name, coalVariant jr, coalQuantity jr, coalUnit jr, coalPrice jr⟩)

/-- Ordered insertion into a list sorted by variant label. -/
def insertByVariant (x : VariantInfo) : List VariantInfo → List VariantInfo
  | [] => [x]
  | y :: ys => if x.variant ≤ y.variant then x :: y :: ys else y :: insertByVariant x ys

/-- ORDER BY variant, as an insertion sort on the variant label. -/
def sortByVariant (l : List VariantInfo) : List VariantInfo :=
  l.foldr insertByVariant []

/-- Result of the voice tool get_item_variants. -/
inductive VariantsResult where
  | notFound
  | found (rows : List VariantInfo)
deriving Repr, DecidableEq

/-- The voice tool get_item_variants: map the item name, run the LEFT JOIN
query ordered by variant, and report not-found when no row matches. -/
def get_item_variants (db : DB) (item_name : String) : VariantsResult :=
  let mapped := mapItemName item_name
  let rows := sortByVariant (itemVariantRows db mapped)
  if rows.isEmpty then .notFound else .found rows

/-- The variant_id of a cart line as tested by Python truthiness in
complete_purchase: a stored id of 0 counts as absent. -/
def truthyVariantId (l : CartLine) : Option Int :=
  match l.variant_id with
  | none => none
  | some v => if v == 0 then none else some v

/-- The per-line re-check of complete_purchase: the line's backing row (its
variant row when it carries a variant id, else its stock row) exists and
holds at least the requested quantity. -/
def lineCheck (db : DB) (l : CartLine) : Bool :=
  match truthyVariantId l with
  | some vid =>
    match findVariantById db vid with
    | none => false
    | some vrow => decide (l.quantity ≤ vrow.quantity)
  | none =>
    match findStockById db l.stock_item_id with
    | none => false
    | some srow => decide (l.quantity ≤ srow.quantity)

/-- The per-line write of complete_purchase: set the backing row's quantity
to the re-read quantity minus the line's requested quantity. -/
def applyLineDec (db : DB) (l : CartLine) : DB :=
  match truthyVariantId l with
  | some vid =>
    match findVariantById db vid with
    | none => db
    | some vrow =>
      { db with item_variants := db.item_variants.map (fun w =>
          if w.id == vid then { w with quantity := vrow.quantity - l.quantity } else w) }
  | none =>
    match findStockById db l.stock_item_id with
    | none => db
    | some srow =>
      { db with stock_items := db.stock_items.map (fun r =>
          if r.id == l.stock_item_id then { r with quantity := srow.quantity - l.quantity } else r) }

/-- The checkout loop of complete_purchase: process the lines in insertion
order, stopping at the first line whose re-check fails. An early stop keeps
the store state as already written, because the transaction block of the
source commits on a plain return. -/
def purchaseLoop : List CartLine → DB → DB × Option CartLine
  | [], db => (db, none)
  | l :: rest, db =>
    if lineCheck db l then purchaseLoop rest (applyLineDec db l)
    else (db, some l)

/-- True when every line of the list passes its re-check in sequence, each
against the store state left by the decrements of the lines before it. -/
def prefixPasses : DB → List CartLine → Bool
  | _, [] => true
  | db, l :: rest => lineCheck db l && prefixPasses (applyLineDec db l) rest

/-- Result of the voice tool complete_purchase. -/
inductive CheckoutResult where
  | emptyCart
  | insufficient (line : CartLine)
  | success (total : ℚ)
deriving Repr, DecidableEq

/-- The voice tool complete_purchase: with no cart lines report the empty
cart; otherwise run the checkout loop. On an early stop report the failing
line, keep the cart, and keep the store as already written; on full
success clear the cart and report the total of all lines. -/
def complete_purchase (db : DB) (cart : List CartLine) :
    CheckoutResult × DB × List CartLine :=
  if cart.isEmpty then (.emptyCart, db, cart)
  else
    match purchaseLoop cart db with
    | (db2, some l) => (.insufficient l, db2, cart)
    | (db2, none) => (.success ((cart.map (fun l => l.total_price)).sum), db2, [])

/-- Total quantity requested by the cart lines backed by a given
stock_items row. -/
def stockLineSum (cart : List CartLine) (sid : Int) : Int :=
  ((cart.filter (fun l => (truthyVariantId l).isNone && l.stock_item_id == sid)).map
    (fun l => l.quantity)).sum

/-- Total quantity requested by the cart lines backed by a given
item_variants row. -/
def varLineSum (cart : List CartLine) (vid : Int) : Int :=
  ((cart.filter (fun l => truthyVariantId l == some vid)).map
    (fun l => l.quantity)).sum

/-- The store invariant: no stored quantity is negative. -/
def dbInv (db : DB) : Prop :=
  (∀ r ∈ db.stock_items, 0 ≤ r.quantity) ∧ (∀ v ∈ db.item_variants, 0 ≤ v.quantity)

instance (db : DB) : Decidable (dbInv db) :=
  inferInstanceAs (Decidable (_ ∧ _))


/-- Example store: one stock item with no variants. -/
def exDB1 : DB :=
  ⟨[⟨1, "Water", 1, "bottles", none⟩], [], 2⟩

/-- Example cart: two lines, each backed by the stock row of exDB1 and each
requesting one unit. -/
def exLineW : CartLine :=
  ⟨"Water", "Default", 1, "bottles", 0, 0, none, 1⟩

def exCart1 : List CartLine := [exLineW, exLineW]

example :
    (complete_purchase exDB1 exCart1).1 = .insufficient exLineW := by decide
example :
    findStockById (complete_purchase exDB1 exCart1).2.1 1 =
      some ⟨1, "Water", 0, "bottles", none⟩ := by decide
example : (complete_purchase exDB1 exCart1).2.2 = exCart1 := by decide


/-- The quantity of the first stock_items row with a given id. -/
def stockQty (db : DB) (i : Int) : Option Int :=
  (findStockById db i).map (fun r => r.quantity)

/-- The quantity of the first item_variants row with a given id. -/
def varQty (db : DB) (i : Int) : Option Int :=
  (findVariantById db i).map (fun v => v.quantity)

theorem find?_map_of_key {α : Type} (key : α → Int) (f : α → α)
    (hf : ∀ x, key (f x) = key x) (l : List α) (j : Int) :
    (l.map f).find? (fun x => key x == j) = (l.find? (fun x => key x == j)).map f := by
  induction l with
  | nil => rfl
  | cons a t ih =>
    rcases hb : (key a == j) with _ | _
    · rw [List.map_cons, List.find?_cons_of_neg, List.find?_cons_of_neg, ih]
      · simp [hb]
      · simp [hf, hb]
    · rw [List.map_cons, List.find?_cons_of_pos, List.find?_cons_of_pos]
      · rfl
      · simp [hb]
      · simp [hf, hb]

example : mapItemName "Coca-Cola" = "Coke" := by decide
example : mapItemName "unknown-thing" = "unknown-thing" := by decide
example : normalize .item "  SODA " = "Coke" := by decide


theorem findStockById_map (db : DB) (f : StockRow → StockRow)
    (hf : ∀ r, (f r).id = r.id) (j : Int) :
    findStockById { db with stock_items := db.stock_items.map f } j =
      (findStockById db j).map f :=
  find?_map_of_key StockRow.id f hf db.stock_items j

theorem findVariantById_map (db : DB) (f : VariantRow → VariantRow)
    (hf : ∀ v, (f v).id = v.id) (j : Int) :
    findVariantById { db with item_variants := db.item_variants.map f } j =
      (findVariantById db j).map f :=
  find?_map_of_key VariantRow.id f hf db.item_variants j

theorem findStockById_id (db : DB) (i : Int) (r : StockRow)
    (h : findStockById db i = some r) : r.id = i := by
  have := List.find?_some h
  simpa using this

theorem findVariantById_id (db : DB) (i : Int) (v : VariantRow)
    (h : findVariantById db i = some v) : v.id = i := by
  have := List.find?_some h
  simpa using this

theorem stockLineSum_cons (l : CartLine) (rest : List CartLine) (i : Int) :
    stockLineSum (l :: rest) i =
      (if ((truthyVariantId l).isNone && l.stock_item_id == i) then l.quantity else 0) +
        stockLineSum rest i := by
  unfold stockLineSum
  rw [List.filter_cons]
  split
  · simp [List.sum_cons]
  · simp

theorem varLineSum_cons (l : CartLine) (rest : List CartLine) (i : Int) :
    varLineSum (l :: rest) i =
      (if (truthyVariantId l == some i) then l.quantity else 0) + varLineSum rest i := by
  unfold varLineSum
  rw [List.filter_cons]
  split
  · simp [List.sum_cons]
  · simp

theorem lineCheck_none_inv (db : DB) (l : CartLine) (htv : truthyVariantId l = none)
    (hc : lineCheck db l = true) :
    ∃ srow, findStockById db l.stock_item_id = some srow ∧ l.quantity ≤ srow.quantity := by
  unfold lineCheck at hc
  rw [htv] at hc
  cases hfs : findStockById db l.stock_item_id with
  | none => rw [hfs] at hc; cases hc
  | some srow =>
    rw [hfs] at hc
    exact ⟨srow, rfl, of_decide_eq_true hc⟩

theorem lineCheck_some_inv (db : DB) (l : CartLine) (vid : Int)
    (htv : truthyVariantId l = some vid) (hc : lineCheck db l = true) :
    ∃ vrow, findVariantById db vid = some vrow ∧ l.quantity ≤ vrow.quantity := by
  unfold lineCheck at hc
  simp only [htv] at hc
  cases hfv : findVariantById db vid with
  | none => simp only [hfv] at hc; cases hc
  | some vrow =>
    simp only [hfv] at hc
    exact ⟨vrow, rfl, of_decide_eq_true hc⟩

theorem applyLineDec_none (db : DB) (l : CartLine) (srow : StockRow)
    (htv : truthyVariantId l = none)
    (hfs : findStockById db l.stock_item_id = some srow) :
    applyLineDec db l =
      { db with stock_items := db.stock_items.map (fun r =>
          if r.id == l.stock_item_id then { r with quantity := srow.quantity - l.quantity }
          else r) } := by
  unfold applyLineDec
  rw [htv, hfs]

theorem applyLineDec_some (db : DB) (l : CartLine) (vid : Int) (vrow : VariantRow)
    (htv : truthyVariantId l = some vid)
    (hfv : findVariantById db vid = some vrow) :
    applyLineDec db l =
      { db with item_variants := db.item_variants.map (fun w =>
          if w.id == vid then { w with quantity := vrow.quantity - l.quantity }
          else w) } := by
  unfold applyLineDec
  simp only [htv, hfv]


theorem stockQty_dec_none (db : DB) (l : CartLine) (srow : StockRow)
    (htv : truthyVariantId l = none)
    (hfs : findStockById db l.stock_item_id = some srow) (i : Int) :
    stockQty (applyLineDec db l) i =
      if l.stock_item_id == i then some (srow.quantity - l.quantity)
      else stockQty db i := by
  rw [applyLineDec_none db l srow htv hfs]
  unfold stockQty
  rw [findStockById_map db _
    (fun r => by by_cases h : (r.id == l.stock_item_id : Bool) <;> simp [h]) i]
  by_cases hi : l.stock_item_id = i
  · subst hi
    rw [hfs]
    have hsid : srow.id = l.stock_item_id :=
      findStockById_id db l.stock_item_id srow hfs
    simp [hsid]
  · rw [if_neg (by simp [hi])]
    cases hfr : findStockById db i with
    | none => simp
    | some r =>
      have hr : r.id = i := findStockById_id db i r hfr
      simp only [Option.map_some']
      rw [if_neg (by simp only [beq_iff_eq, hr]; exact fun h => hi h.symm)]

theorem varQty_dec_none (db : DB) (l : CartLine) (srow : StockRow)
    (htv : truthyVariantId l = none)
    (hfs : findStockById db l.stock_item_id = some srow) (i : Int) :
    varQty (applyLineDec db l) i = varQty db i := by
  rw [applyLineDec_none db l srow htv hfs]
  rfl

theorem varQty_dec_some (db : DB) (l : CartLine) (vid : Int) (vrow : VariantRow)
    (htv : truthyVariantId l = some vid)
    (hfv : findVariantById db vid = some vrow) (i : Int) :
    varQty (applyLineDec db l) i =
      if vid == i then some (vrow.quantity - l.quantity)
      else varQty db i := by
  rw [applyLineDec_some db l vid vrow htv hfv]
  unfold varQty
  rw [findVariantById_map db _
    (fun w => by by_cases h : (w.id == vid : Bool) <;> simp [h]) i]
  by_cases hi : vid = i
  · subst hi
    rw [hfv]
    have hvid : vrow.id = vid := findVariantById_id db vid vrow hfv
    simp [hvid]
  · rw [if_neg (by simp [hi])]
    cases hfr : findVariantById db i with
    | none => simp
    | some w =>
      have hw : w.id = i := findVariantById_id db i w hfr
      simp only [Option.map_some']
      rw [if_neg (by simp only [beq_iff_eq, hw]; exact fun h => hi h.symm)]

theorem stockQty_dec_some (db : DB) (l : CartLine) (vid : Int) (vrow : VariantRow)
    (htv : truthyVariantId l = some vid)
    (hfv : findVariantById db vid = some vrow) (i : Int) :
    stockQty (applyLineDec db l) i = stockQty db i := by
  rw [applyLineDec_some db l vid vrow htv hfv]
  rfl


theorem prefixPasses_cons (db : DB) (l : CartLine) (rest : List CartLine) :
    prefixPasses db (l :: rest) =
      (lineCheck db l && prefixPasses (applyLineDec db l) rest) := rfl

theorem foldl_dec_qty (cart : List CartLine) :
    ∀ db : DB, prefixPasses db cart = true →
      (∀ i, stockQty (cart.foldl applyLineDec db) i =
          (stockQty db i).map (fun q => q - stockLineSum cart i)) ∧
      (∀ i, varQty (cart.foldl applyLineDec db) i =
          (varQty db i).map (fun q => q - varLineSum cart i)) := by
  induction cart with
  | nil =>
    intro db _
    refine ⟨fun i => ?_, fun i => ?_⟩
    · cases h : stockQty db i <;> simp [stockLineSum, h]
    · cases h : varQty db i <;> simp [varLineSum, h]
  | cons l rest ih =>
    intro db hp
    rw [prefixPasses_cons, Bool.and_eq_true] at hp
    obtain ⟨hc, hrest⟩ := hp
    obtain ⟨hS, hV⟩ := ih (applyLineDec db l) hrest
    cases htv : truthyVariantId l with
    | none =>
      obtain ⟨srow, hfs, hle⟩ := lineCheck_none_inv db l htv hc
      refine ⟨fun i => ?_, fun i => ?_⟩
      · rw [List.foldl_cons, hS i, stockQty_dec_none db l srow htv hfs i,
          stockLineSum_cons]
        by_cases hi : l.stock_item_id = i
        · subst hi
          simp [htv, stockQty, hfs, Int.sub_sub]
        · simp [htv, hi]
      · rw [List.foldl_cons, hV i, varQty_dec_none db l srow htv hfs i,
          varLineSum_cons]
        simp [htv]
    | some vid =>
      obtain ⟨vrow, hfv, hle⟩ := lineCheck_some_inv db l vid htv hc
      refine ⟨fun i => ?_, fun i => ?_⟩
      · rw [List.foldl_cons, hS i, stockQty_dec_some db l vid vrow htv hfv i,
          stockLineSum_cons]
        simp [htv]
      · rw [List.foldl_cons, hV i, varQty_dec_some db l vid vrow htv hfv i,
          varLineSum_cons]
        by_cases hi : vid = i
        · subst hi
          simp [htv, varQty, hfv, Int.sub_sub]
        · simp [htv, hi]

theorem purchaseLoop_pass (cart : List CartLine) :
    ∀ db, prefixPasses db cart = true →
      purchaseLoop cart db = (cart.foldl applyLineDec db, none) := by
  induction cart with
  | nil => intro db _; rfl
  | cons l rest ih =>
    intro db hp
    rw [prefixPasses_cons, Bool.and_eq_true] at hp
    simp [purchaseLoop, hp.1, ih _ hp.2]

theorem purchaseLoop_fail (cart : List CartLine) :
    ∀ db, prefixPasses db cart = false →
      ∃ pre l post, cart = pre ++ l :: post ∧
        prefixPasses db pre = true ∧
        lineCheck (pre.foldl applyLineDec db) l = false ∧
        purchaseLoop cart db = (pre.foldl applyLineDec db, some l) := by
  induction cart with
  | nil => intro db hp; exact absurd hp (by simp [prefixPasses])
  | cons l rest ih =>
    intro db hp
    cases hc : lineCheck db l with
    | false =>
      exact ⟨[], l, rest, rfl, rfl, by simpa using hc, by simp [purchaseLoop, hc]⟩
    | true =>
      have hrest : prefixPasses (applyLineDec db l) rest = false := by
        rw [prefixPasses_cons, hc] at hp
        simpa using hp
      obtain ⟨pre, l2, post, hsplit, hpre, hfail, hloop⟩ := ih (applyLineDec db l) hrest
      refine ⟨l :: pre, l2, post, by rw [hsplit, List.cons_append], ?_, ?_, ?_⟩
      · simp [prefixPasses_cons, hc, hpre]
      · simpa using hfail
      · simp [purchaseLoop, hc, hloop]

theorem applyLineDec_inv (db : DB) (l : CartLine)
    (hc : lineCheck db l = true) (hinv : dbInv db) : dbInv (applyLineDec db l) := by
  obtain ⟨h1, h2⟩ := hinv
  cases htv : truthyVariantId l with
  | none =>
    obtain ⟨srow, hfs, hle⟩ := lineCheck_none_inv db l htv hc
    rw [applyLineDec_none db l srow htv hfs]
    refine ⟨?_, h2⟩
    intro r' hr'
    obtain ⟨r, hrmem, hreq⟩ := List.mem_map.mp hr'
    by_cases h : r.id = l.stock_item_id
    · rw [if_pos (by simp [h])] at hreq
      rw [← hreq]
      show 0 ≤ srow.quantity - l.quantity
      omega
    · rw [if_neg (by simp [h])] at hreq
      rw [← hreq]
      exact h1 r hrmem
  | some vid =>
    obtain ⟨vrow, hfv, hle⟩ := lineCheck_some_inv db l vid htv hc
    rw [applyLineDec_some db l vid vrow htv hfv]
    refine ⟨h1, ?_⟩
    intro w' hw'
    obtain ⟨w, hwmem, hweq⟩ := List.mem_map.mp hw'
    by_cases h : w.id = vid
    · rw [if_pos (by simp [h])] at hweq
      rw [← hweq]
      show 0 ≤ vrow.quantity - l.quantity
      omega
    · rw [if_neg (by simp [h])] at hweq
      rw [← hweq]
      exact h2 w hwmem

theorem purchaseLoop_inv (cart : List CartLine) :
    ∀ db, dbInv db → dbInv (purchaseLoop cart db).1 := by
  induction cart with
  | nil => intro db h; exact h
  | cons l rest ih =>
    intro db h
    cases hc : lineCheck db l with
    | true => simpa [purchaseLoop, hc] using ih _ (applyLineDec_inv db l hc h)
    | false => simpa [purchaseLoop, hc] using h


/-- Claim C1 is false as stated: on the store exDB1 holding one unit of
Water, a cart with two one-unit lines for that row makes complete_purchase
fail with the insufficient-stock message on the second line, yet the
decrement already performed for the first line stays visible: the stored
quantity drops from 1 to 0. -/
theorem C1_counterexample :
    (complete_purchase exDB1 exCart1).1 = .insufficient exLineW ∧
    stockQty exDB1 1 = some 1 ∧
    stockQty (complete_purchase exDB1 exCart1).2.1 1 = some 0 := by decide

/-- Claim C1 (amended): when complete_purchase fails with InsufficientStock
on a cart line, the decrements already performed for the earlier cart lines
of the same call are committed and visible to subsequent readers: the
resulting store is exactly the original one with every stock and variant
quantity decreased by the totals requested by the processed prefix (so a
row not touched by that prefix is unchanged), and the cart is kept. -/
theorem C1_committed_writes (db : DB) (cart : List CartLine) (l : CartLine)
    (h : (complete_purchase db cart).1 = .insufficient l) :
    ∃ pre post, cart = pre ++ l :: post ∧
      prefixPasses db pre = true ∧
      lineCheck (pre.foldl applyLineDec db) l = false ∧
      (complete_purchase db cart).2.1 = pre.foldl applyLineDec db ∧
      (complete_purchase db cart).2.2 = cart ∧
      (∀ i, stockQty (complete_purchase db cart).2.1 i =
        (stockQty db i).map (fun q => q - stockLineSum pre i)) ∧
      (∀ i, varQty (complete_purchase db cart).2.1 i =
        (varQty db i).map (fun q => q - varLineSum pre i)) := by
  by_cases hne : cart.isEmpty
  · simp [complete_purchase, hne] at h
  · cases hp : prefixPasses db cart with
    | true =>
      rw [complete_purchase, if_neg (by simp [hne]),
        purchaseLoop_pass cart db hp] at h
      simp at h
    | false =>
      obtain ⟨pre, l2, post, hsplit, hpre, hfail, hloop⟩ := purchaseLoop_fail cart db hp
      have hcp : complete_purchase db cart =
          (.insufficient l2, pre.foldl applyLineDec db, cart) := by
        rw [complete_purchase, if_neg (by simp [hne]), hloop]
      have hl : l2 = l := by
        rw [hcp] at h
        simpa using h
      subst hl
      obtain ⟨hSq, hVq⟩ := foldl_dec_qty pre db hpre
      exact ⟨pre, post, hsplit, hpre, hfail, by rw [hcp], by rw [hcp],
        fun i => by rw [hcp]; exact hSq i, fun i => by rw [hcp]; exact hVq i⟩

/-- Witness for C1_committed_writes at the concrete exDB1 / exCart1
scenario. -/
theorem C1_committed_writes_witness :
    (complete_purchase exDB1 exCart1).1 = .insufficient exLineW ∧
    (∃ pre post, exCart1 = pre ++ exLineW :: post ∧
      prefixPasses exDB1 pre = true ∧
      lineCheck (pre.foldl applyLineDec exDB1) exLineW = false ∧
      (complete_purchase exDB1 exCart1).2.1 = pre.foldl applyLineDec exDB1 ∧
      (complete_purchase exDB1 exCart1).2.2 = exCart1 ∧
      (∀ i, stockQty (complete_purchase exDB1 exCart1).2.1 i =
        (stockQty exDB1 i).map (fun q => q - stockLineSum pre i)) ∧
      (∀ i, varQty (complete_purchase exDB1 exCart1).2.1 i =
        (varQty exDB1 i).map (fun q => q - varLineSum pre i))) :=
  ⟨by decide, C1_committed_writes exDB1 exCart1 exLineW (by decide)⟩

/-- Claim C2: on a non-empty cart, complete_purchase either succeeds,
reporting the sum of the line totals, emptying the cart, and decrementing
the (first) backing row of every line by exactly the total quantity the
cart requests from it, or it leaves the cart unchanged and reports the
first line, in insertion order, whose live re-read quantity is below the
line's requested quantity. -/
theorem C2_checkout_dichotomy (db : DB) (cart : List CartLine)
    (hne : cart ≠ []) :
    ((complete_purchase db cart).1 =
        .success ((cart.map (fun l => l.total_price)).sum) ∧
      (complete_purchase db cart).2.2 = [] ∧
      (∀ i, stockQty (complete_purchase db cart).2.1 i =
        (stockQty db i).map (fun q => q - stockLineSum cart i)) ∧
      (∀ i, varQty (complete_purchase db cart).2.1 i =
        (varQty db i).map (fun q => q - varLineSum cart i)))
    ∨ ((complete_purchase db cart).2.2 = cart ∧
      ∃ pre l post, cart = pre ++ l :: post ∧
        prefixPasses db pre = true ∧
        lineCheck (pre.foldl applyLineDec db) l = false ∧
        (complete_purchase db cart).1 = .insufficient l) := by
  have hne' : cart.isEmpty = false := by
    cases cart with
    | nil => exact absurd rfl hne
    | cons a t => rfl
  cases hp : prefixPasses db cart with
  | true =>
    left
    have hcp : complete_purchase db cart =
        (.success ((cart.map (fun l => l.total_price)).sum),
         cart.foldl applyLineDec db, []) := by
      rw [complete_purchase, if_neg (by simp [hne']), purchaseLoop_pass cart db hp]
    obtain ⟨hSq, hVq⟩ := foldl_dec_qty cart db hp
    exact ⟨by rw [hcp], by rw [hcp],
      fun i => by rw [hcp]; exact hSq i, fun i => by rw [hcp]; exact hVq i⟩
  | false =>
    right
    obtain ⟨pre, l, post, hsplit, hpre, hfail, hloop⟩ := purchaseLoop_fail cart db hp
    have hcp : complete_purchase db cart =
        (.insufficient l, pre.foldl applyLineDec db, cart) := by
      rw [complete_purchase, if_neg (by simp [hne']), hloop]
    exact ⟨by rw [hcp], pre, l, post, hsplit, hpre, hfail, by rw [hcp]⟩

/-- Store used for the successful-checkout and CRUD witnesses: one stock
item Water with one Regular variant. -/
def wDB2 : DB :=
  ⟨[⟨1, "Water", 5, "bottles", none⟩], [⟨2, 1, "Regular", 4, "bottles", 3⟩], 3⟩

/-- Cart used for the successful-checkout witness: one line on the stock
row and one line on the variant row. -/
def wCart2 : List CartLine :=
  [⟨"Water", "Default", 2, "bottles", 0, 0, none, 1⟩,
   ⟨"Water", "Regular", 1, "bottles", 3, 3, some 2, 1⟩]

/-- Witness for C2_checkout_dichotomy at the concrete wDB2 / wCart2
scenario. -/
theorem C2_checkout_dichotomy_witness :
    wCart2 ≠ [] ∧
    (((complete_purchase wDB2 wCart2).1 =
        .success ((wCart2.map (fun l => l.total_price)).sum) ∧
      (complete_purchase wDB2 wCart2).2.2 = [] ∧
      (∀ i, stockQty (complete_purchase wDB2 wCart2).2.1 i =
        (stockQty wDB2 i).map (fun q => q - stockLineSum wCart2 i)) ∧
      (∀ i, varQty (complete_purchase wDB2 wCart2).2.1 i =
        (varQty wDB2 i).map (fun q => q - varLineSum wCart2 i)))
    ∨ ((complete_purchase wDB2 wCart2).2.2 = wCart2 ∧
      ∃ pre l post, wCart2 = pre ++ l :: post ∧
        prefixPasses wDB2 pre = true ∧
        lineCheck (pre.foldl applyLineDec wDB2) l = false ∧
        (complete_purchase wDB2 wCart2).1 = .insufficient l)) :=
  ⟨by decide, C2_checkout_dichotomy wDB2 wCart2 (by decide)⟩


/-- Claim C3: for an existing item with prior quantity Q and a positive
request q, purchase stores and returns exactly Q - q when q is at most Q
(so a subsequent get-by-id shows the decremented row), fails
InsufficientStock with the store unchanged when q exceeds Q, and fails
NotFound for an absent id with the store unchanged. -/
theorem C3_purchase_spec (db : DB) (item_id quantity : Int) (hq : 0 < quantity) :
    (∀ r0, get_stock_by_id db item_id = some r0 →
      (quantity ≤ r0.quantity →
        (purchase_item db item_id quantity).1 =
          .ok r0.item_name quantity (r0.quantity - quantity) ∧
        get_stock_by_id (purchase_item db item_id quantity).2 item_id =
          some { r0 with quantity := r0.quantity - quantity }) ∧
      (r0.quantity < quantity →
        purchase_item db item_id quantity = (.insufficientStock r0.quantity quantity, db))) ∧
    (get_stock_by_id db item_id = none →
      purchase_item db item_id quantity = (.notFound, db)) := by
  constructor
  · intro r0 h0
    rw [get_stock_by_id] at h0
    constructor
    · intro hle
      have hnlt : ¬ (r0.quantity < quantity) := not_lt.mpr hle
      have hid : r0.id = item_id := findStockById_id db item_id r0 h0
      constructor
      · simp only [purchase_item, h0]
        rw [if_neg hnlt]
      · simp only [purchase_item, h0]
        rw [if_neg hnlt]
        rw [get_stock_by_id]
        rw [findStockById_map db _
          (fun r => by by_cases h : (r.id == item_id : Bool) <;> simp [h]) item_id]
        rw [h0]
        simp [hid]
    · intro hlt
      simp only [purchase_item, h0]
      rw [if_pos hlt]
  · intro h0
    rw [get_stock_by_id] at h0
    simp only [purchase_item, h0]

/-- Witness for C3_purchase_spec: buying 2 of the 5 stored bottles of Water
in wDB2 returns remaining quantity 3 and stores it. -/
theorem C3_purchase_spec_witness :
    (0 : Int) < 2 ∧
    get_stock_by_id wDB2 1 = some ⟨1, "Water", 5, "bottles", none⟩ ∧
    ((purchase_item wDB2 1 2).1 = .ok "Water" 2 3 ∧
     get_stock_by_id (purchase_item wDB2 1 2).2 1 =
       some ⟨1, "Water", 3, "bottles", none⟩) := by
  refine ⟨by decide, by decide, ?_⟩
  exact ((C3_purchase_spec wDB2 1 2 (by decide)).1
    ⟨1, "Water", 5, "bottles", none⟩ (by decide)).1 (by decide)


/-- Claim C4: from any store whose quantities are all nonnegative, each of
the five mutating operations preserves the invariant, with the input
constraints the HTTP layer enforces before the handlers run (create
quantity nonnegative, update quantity nonnegative when supplied,
add-quantity delta positive). -/
theorem C4_nonneg_invariant (db : DB) (hinv : dbInv db) :
    (∀ item_name quantity unit, 0 ≤ quantity →
      dbInv (add_stock db item_name quantity unit).2) ∧
    (∀ item_id u, (∀ q, u.quantity = some q → 0 ≤ q) →
      dbInv (update_stock db item_id u).2) ∧
    (∀ item_id d, 0 < d → dbInv (add_quantity_to_stock db item_id d).2) ∧
    (∀ item_id q, dbInv (purchase_item db item_id q).2) ∧
    (∀ cart, dbInv (complete_purchase db cart).2.1) := by
  obtain ⟨h1, h2⟩ := hinv
  refine ⟨?_, ?_, ?_, ?_, ?_⟩
  · intro item_name quantity unit hq
    unfold add_stock
    by_cases hc : db.stock_items.any (fun r => pyLower r.item_name == pyLower item_name)
    · rw [if_pos hc]
      exact ⟨h1, h2⟩
    · rw [if_neg hc]
      refine ⟨fun r hr => ?_, h2⟩
      rcases List.mem_append.mp hr with hmem | hmem
      · exact h1 r hmem
      · rw [List.mem_singleton] at hmem
        subst hmem
        exact hq
  · intro item_id u hu
    cases hfs : findStockById db item_id with
    | none =>
      simp only [update_stock, hfs]
      exact ⟨h1, h2⟩
    | some r0 =>
      simp only [update_stock, hfs]
      by_cases hn : noUpdateFields u = true
      · rw [if_pos hn]
        exact ⟨h1, h2⟩
      · rw [if_neg hn]
        refine ⟨fun r' hr' => ?_, h2⟩
        obtain ⟨r, hrmem, hreq⟩ := List.mem_map.mp hr'
        by_cases hid : r.id = item_id
        · rw [if_pos (by simp [hid])] at hreq
          rw [← hreq]
          show 0 ≤ (applyUpdate u r).quantity
          unfold applyUpdate
          cases hq : u.quantity with
          | none => simpa using h1 r hrmem
          | some q => simpa using hu q hq
        · rw [if_neg (by simp [hid])] at hreq
          rw [← hreq]
          exact h1 r hrmem
  · intro item_id d hd
    cases hfs : findStockById db item_id with
    | none =>
      simp only [add_quantity_to_stock, hfs]
      exact ⟨h1, h2⟩
    | some r0 =>
      simp only [add_quantity_to_stock, hfs]
      refine ⟨fun r' hr' => ?_, h2⟩
      obtain ⟨r, hrmem, hreq⟩ := List.mem_map.mp hr'
      by_cases hid : r.id = item_id
      · rw [if_pos (by simp [hid])] at hreq
        rw [← hreq]
        have := h1 r hrmem
        show 0 ≤ r.quantity + d
        omega
      · rw [if_neg (by simp [hid])] at hreq
        rw [← hreq]
        exact h1 r hrmem
  · intro item_id q
    cases hfs : findStockById db item_id with
    | none =>
      simp only [purchase_item, hfs]
      exact ⟨h1, h2⟩
    | some row =>
      simp only [purchase_item, hfs]
      by_cases hlt : row.quantity < q
      · rw [if_pos hlt]
        exact ⟨h1, h2⟩
      · rw [if_neg hlt]
        refine ⟨fun r' hr' => ?_, h2⟩
        obtain ⟨r, hrmem, hreq⟩ := List.mem_map.mp hr'
        by_cases hid : r.id = item_id
        · rw [if_pos (by simp [hid])] at hreq
          rw [← hreq]
          show 0 ≤ row.quantity - q
          omega
        · rw [if_neg (by simp [hid])] at hreq
          rw [← hreq]
          exact h1 r hrmem
  · intro cart
    by_cases hne : cart.isEmpty
    · simp only [complete_purchase, if_pos hne]
      exact ⟨h1, h2⟩
    · have hloop := purchaseLoop_inv cart db ⟨h1, h2⟩
      rcases hl : purchaseLoop cart db with ⟨db2, res⟩
      rw [hl] at hloop
      cases res with
      | none =>
        simp only [complete_purchase, if_neg hne, hl]
        exact hloop
      | some l =>
        simp only [complete_purchase, if_neg hne, hl]
        exact hloop

/-- Witness for C4_nonneg_invariant: the invariant holds on wDB2 and is
kept by a concrete call of each of the five operations. -/
theorem C4_nonneg_invariant_witness :
    dbInv wDB2 ∧
    dbInv (add_stock wDB2 "Juice" 3 "cartons").2 ∧
    dbInv (update_stock wDB2 1 ⟨none, some 2, none⟩).2 ∧
    dbInv (add_quantity_to_stock wDB2 1 4).2 ∧
    dbInv (purchase_item wDB2 1 2).2 ∧
    dbInv (complete_purchase wDB2 wCart2).2.1 := by
  have h := C4_nonneg_invariant wDB2 (by decide)
  exact ⟨by decide,
    h.1 "Juice" 3 "cartons" (by decide),
    h.2.1 1 ⟨none, some 2, none⟩ (fun q hq => by
      have h2 : (some (2 : Int)) = some q := hq
      injection h2 with h3
      omega),
    h.2.2.1 1 4 (by decide),
    h.2.2.2.1 1 2,
    h.2.2.2.2 wCart2⟩


theorem filter_flatMap_aux {α β : Type} (l : List α) (g : α → List β) (p : β → Bool) :
    (l.flatMap g).filter p = l.flatMap (fun a => (g a).filter p) := by
  induction l with
  | nil => rfl
  | cons a t ih =>
    rw [List.flatMap_cons, List.flatMap_cons, List.filter_append, ih]

theorem flatMap_if_const {α β : Type} (l : List α) (g : α → List β) (q : α → Bool) :
    (l.flatMap (fun a => if q a then g a else [])) = (l.filter q).flatMap g := by
  induction l with
  | nil => rfl
  | cons a t ih =>
    rw [List.flatMap_cons, List.filter_cons]
    by_cases hq : q a
    · rw [if_pos hq, if_pos hq, List.flatMap_cons, ih]
    · rw [if_neg hq, if_neg hq, List.nil_append, ih]

theorem joinOne_filter_name (db : DB) (m : String) (s : StockRow) :
    (joinOne db s).filter (fun jr => nameMatches jr.s m) =
      if nameMatches s m then joinOne db s else [] := by
  unfold joinOne
  by_cases hv : (variantsOf db s.id).isEmpty
  · rw [if_pos hv]
    by_cases hm : nameMatches s m <;> simp [hm]
  · rw [if_neg hv]
    by_cases hm : nameMatches s m
    · rw [if_pos hm, List.filter_map]
      have heq : ((variantsOf db s.id).filter
          ((fun jr => nameMatches jr.s m) ∘ fun v => (⟨s, some v⟩ : JoinedRow))) =
          variantsOf db s.id :=
        List.filter_eq_self.mpr (fun v _ => hm)
      rw [heq]
    · rw [if_neg hm, List.filter_map]
      have heq : ((variantsOf db s.id).filter
          ((fun jr => nameMatches jr.s m) ∘ fun v => (⟨s, some v⟩ : JoinedRow))) =
          [] :=
        List.filter_eq_nil_iff.mpr (fun v _ => hm)
      rw [heq, List.map_nil]

theorem itemVariantRows_eq (db : DB) (m : String) :
    itemVariantRows db m =
      ((db.stock_items.filter (fun s => nameMatches s m)).flatMap (joinOne db)).map
        (fun jr =>
          ⟨jr.s.item_name, coalVariant jr, coalQuantity jr, coalUnit jr, coalPrice jr⟩) := by
  unfold itemVariantRows joinRows
  rw [filter_flatMap_aux]
  have hfun : (fun a => (joinOne db a).filter (fun jr => nameMatches jr.s m)) =
      (fun a => if nameMatches a m then joinOne db a else []) :=
    funext (joinOne_filter_name db m)
  rw [hfun, flatMap_if_const]

/-- Store used in the C5 scenarios: one item with a stored price of 7 and
no variant rows. -/
def exDB5 : DB := ⟨[⟨1, "Water", 5, "bottles", some 7⟩], [], 2⟩

/-- Claim C5 is false as stated: for the no-variant item of exDB5, whose
own stored price is 7, get_item_variants reports the synthesized Default
row with price 0 taken from COALESCE(v.price, 0), not with the StockItem's
own price. Quantity and unit do come from the StockItem row. -/
theorem C5_counterexample :
    get_item_variants exDB5 "Water" =
      .found [⟨"Water", "Default", 5, "bottles", 0⟩] ∧
    exDB5.stock_items.map (fun r => r.price) = [some 7] ∧
    VariantsResult.found [⟨"Water", "Default", 5, "bottles", (7 : ℚ)⟩] ≠
      get_item_variants exDB5 "Water" := by decide

/-- Claim C5 (amended): for an item name resolving to exactly one catalog
row that owns no variant rows, get_item_variants returns exactly one row
labeled Default whose quantity and unit are the StockItem's own and whose
price is 0; for a name resolving to no catalog row it reports not-found. -/
theorem C5_variants_default_row (db : DB) (item_name : String) :
    (∀ s, db.stock_items.filter (fun r => nameMatches r (mapItemName item_name)) = [s] →
      variantsOf db s.id = [] →
      get_item_variants db item_name =
        .found [⟨s.item_name, "Default", s.quantity, s.unit, 0⟩]) ∧
    (db.stock_items.filter (fun r => nameMatches r (mapItemName item_name)) = [] →
      get_item_variants db item_name = .notFound) := by
  constructor
  · intro s hf hv
    simp only [get_item_variants]
    rw [itemVariantRows_eq, hf]
    simp [joinOne, hv, sortByVariant, insertByVariant,
      coalVariant, coalQuantity, coalUnit, coalPrice]
  · intro hf
    simp only [get_item_variants]
    rw [itemVariantRows_eq, hf]
    rfl

/-- Witness for C5_variants_default_row at the concrete exDB5 store. -/
theorem C5_variants_default_row_witness :
    exDB5.stock_items.filter (fun r => nameMatches r (mapItemName "Water")) =
      [⟨1, "Water", 5, "bottles", some 7⟩] ∧
    variantsOf exDB5 (1 : Int) = [] ∧
    get_item_variants exDB5 "Water" =
      .found [⟨"Water", "Default", 5, "bottles", 0⟩] :=
  ⟨by decide, by decide,
   (C5_variants_default_row exDB5 "Water").1 ⟨1, "Water", 5, "bottles", some 7⟩
     (by decide) (by decide)⟩


/-- Claim C6: create fails Conflict exactly when some existing item name
matches the request case-insensitively - in particular a second create of
the same name in any case after a successful one fails - and otherwise
appends a new row carrying the generated id and exactly the supplied name,
quantity and unit, and returns that row. -/
theorem C6_add_stock_spec (db : DB) (item_name : String) (quantity : Int)
    (unit : String) :
    ((∃ r ∈ db.stock_items, pyLower r.item_name = pyLower item_name) →
      add_stock db item_name quantity unit = (.conflict, db)) ∧
    ((∀ r ∈ db.stock_items, pyLower r.item_name ≠ pyLower item_name) →
      add_stock db item_name quantity unit =
        (.created ⟨db.next_stock_id, item_name, quantity, unit, none⟩,
         ⟨db.stock_items ++ [⟨db.next_stock_id, item_name, quantity, unit, none⟩],
          db.item_variants, db.next_stock_id + 1⟩) ∧
      (∀ name2 quantity2 unit2, pyLower name2 = pyLower item_name →
        (add_stock (add_stock db item_name quantity unit).2
          name2 quantity2 unit2).1 = .conflict)) := by
  constructor
  · rintro ⟨r, hr, he⟩
    unfold add_stock
    have hx : (db.stock_items.any
        (fun r => pyLower r.item_name == pyLower item_name)) = true := by
      apply List.any_eq_true.mpr
      exact ⟨r, hr, by simp [he]⟩
    rw [if_pos hx]
  · intro hall
    have hany : db.stock_items.any
        (fun r => pyLower r.item_name == pyLower item_name) = false := by
      rw [List.any_eq_false]
      intro r hr
      simp [hall r hr]
    constructor
    · unfold add_stock
      rw [if_neg (by simp [hany])]
    · intro name2 quantity2 unit2 he2
      have hdb2 : (add_stock db item_name quantity unit).2 =
          ⟨db.stock_items ++ [⟨db.next_stock_id, item_name, quantity, unit, none⟩],
           db.item_variants, db.next_stock_id + 1⟩ := by
        unfold add_stock
        rw [if_neg (by simp [hany])]
      rw [hdb2]
      unfold add_stock
      dsimp only
      have hx : ((db.stock_items ++
          [(⟨db.next_stock_id, item_name, quantity, unit, none⟩ : StockRow)]).any
          (fun r => pyLower r.item_name == pyLower name2)) = true := by
        apply List.any_eq_true.mpr
        refine ⟨⟨db.next_stock_id, item_name, quantity, unit, none⟩, ?_, ?_⟩
        · exact List.mem_append.mpr (Or.inr (List.mem_singleton.mpr rfl))
        · simp [he2]
      rw [if_pos hx]

/-- Witness for C6_add_stock_spec: creating Juice in wDB2 succeeds and a
second create as JUICE hits the conflict. -/
theorem C6_add_stock_spec_witness :
    (∀ r ∈ wDB2.stock_items, pyLower r.item_name ≠ pyLower "Juice") ∧
    (add_stock wDB2 "Juice" 3 "cartons" =
      (.created ⟨3, "Juice", 3, "cartons", none⟩,
       ⟨wDB2.stock_items ++ [⟨3, "Juice", 3, "cartons", none⟩],
        wDB2.item_variants, 4⟩) ∧
     (add_stock (add_stock wDB2 "Juice" 3 "cartons").2 "JUICE" 9 "boxes").1 =
       .conflict) := by
  refine ⟨by decide, ?_, ?_⟩
  · exact ((C6_add_stock_spec wDB2 "Juice" 3 "cartons").2 (by decide)).1
  · exact ((C6_add_stock_spec wDB2 "Juice" 3 "cartons").2 (by decide)).2
      "JUICE" 9 "boxes" (by decide)

/-- Claim C7: update fails NotFound when the id is absent, fails
InvalidArgument when no fields are supplied, and otherwise writes only the
supplied fields: the unsupplied fields of the row keep their prior values,
the id is kept, the returned row is the row's new stored state, and every
other id resolves exactly as before. -/
theorem C7_update_stock_spec (db : DB) (item_id : Int) (u : StockItemUpdate) :
    (findStockById db item_id = none →
      update_stock db item_id u = (.notFound, db)) ∧
    (∀ r0, findStockById db item_id = some r0 →
      (noUpdateFields u = true →
        update_stock db item_id u = (.invalidNoFields, db)) ∧
      (noUpdateFields u = false →
        (update_stock db item_id u).1 = .updated (applyUpdate u r0) ∧
        get_stock_by_id (update_stock db item_id u).2 item_id =
          some (applyUpdate u r0) ∧
        (u.item_name = none → (applyUpdate u r0).item_name = r0.item_name) ∧
        (u.quantity = none → (applyUpdate u r0).quantity = r0.quantity) ∧
        (u.unit = none → (applyUpdate u r0).unit = r0.unit) ∧
        (applyUpdate u r0).id = r0.id ∧
        (∀ j, j ≠ item_id →
          get_stock_by_id (update_stock db item_id u).2 j =
            get_stock_by_id db j))) := by
  constructor
  · intro h0
    simp only [update_stock, h0]
  · intro r0 h0
    constructor
    · intro hn
      simp only [update_stock, h0]
      rw [if_pos hn]
    · intro hn
      have hid : r0.id = item_id := findStockById_id db item_id r0 h0
      have hupd : update_stock db item_id u =
          (.updated (applyUpdate u r0),
           { db with stock_items := db.stock_items.map (fun r =>
               if r.id == item_id then applyUpdate u r else r) }) := by
        simp only [update_stock, h0]
        rw [if_neg (by simp [hn])]
      refine ⟨by rw [hupd], ?_, ?_, ?_, ?_, ?_, ?_⟩
      · rw [hupd, get_stock_by_id]
        rw [findStockById_map db _
          (fun r => by by_cases h : (r.id == item_id : Bool) <;>
            simp [h, applyUpdate]) item_id]
        rw [h0]
        simp [hid]
      · intro h
        simp [applyUpdate, h]
      · intro h
        simp [applyUpdate, h]
      · intro h
        simp [applyUpdate, h]
      · simp [applyUpdate]
      · intro j hj
        rw [hupd, get_stock_by_id, get_stock_by_id]
        rw [findStockById_map db _
          (fun r => by by_cases h : (r.id == item_id : Bool) <;>
            simp [h, applyUpdate]) j]
        cases hfr : findStockById db j with
        | none => rfl
        | some r =>
          have hr : r.id = j := findStockById_id db j r hfr
          simp only [Option.map_some']
          rw [if_neg (by simp only [beq_iff_eq, hr]; exact hj)]

/-- Witness for C7_update_stock_spec: updating only the quantity of row 1
of wDB2 keeps its name and unit and stores the new quantity. -/
theorem C7_update_stock_spec_witness :
    findStockById wDB2 1 = some ⟨1, "Water", 5, "bottles", none⟩ ∧
    noUpdateFields ⟨none, some 2, none⟩ = false ∧
    ((update_stock wDB2 1 ⟨none, some 2, none⟩).1 =
      .updated (applyUpdate ⟨none, some 2, none⟩ ⟨1, "Water", 5, "bottles", none⟩) ∧
     get_stock_by_id (update_stock wDB2 1 ⟨none, some 2, none⟩).2 1 =
      some (applyUpdate ⟨none, some 2, none⟩ ⟨1, "Water", 5, "bottles", none⟩)) := by
  refine ⟨by decide, by decide, ?_, ?_⟩
  · exact (((C7_update_stock_spec wDB2 1 ⟨none, some 2, none⟩).2
      ⟨1, "Water", 5, "bottles", none⟩ (by decide)).2 (by decide)).1
  · exact (((C7_update_stock_spec wDB2 1 ⟨none, some 2, none⟩).2
      ⟨1, "Water", 5, "bottles", none⟩ (by decide)).2 (by decide)).2.1

/-- Claim C8: the normalizer is a pure total function: it returns the
canonical string mapped from the stripped lower-cased input when that key
is in the kind's fixed table, else the original input unchanged, and in
particular maps the item name Coca-Cola to Coke and leaves unknown-thing
unchanged. -/
theorem C8_normalize_spec (k : MapKind) (text canon : String) :
    ((mappingTable k).lookup (pyStrip (pyLower text)) = some canon →
      normalize k text = canon) ∧
    ((mappingTable k).lookup (pyStrip (pyLower text)) = none →
      normalize k text = text) ∧
    normalize .item "Coca-Cola" = "Coke" ∧
    normalize .item "unknown-thing" = "unknown-thing" := by
  refine ⟨?_, ?_, by decide, by decide⟩
  · intro h
    cases k <;>
      · simp only [mappingTable] at h
        simp only [normalize, mapItemName, mapVariantName, mapCategoryName, h,
          Option.getD_some]
  · intro h
    cases k <;>
      · simp only [mappingTable] at h
        simp only [normalize, mapItemName, mapVariantName, mapCategoryName, h,
          Option.getD_none]

/-- Witness for C8_normalize_spec: the table hit for cola and the miss for
Sprite. -/
theorem C8_normalize_spec_witness :
    (mappingTable .item).lookup (pyStrip (pyLower " Cola ")) = some "Coke" ∧
    normalize .item " Cola " = "Coke" ∧
    (mappingTable .item).lookup (pyStrip (pyLower "Sprite")) = none ∧
    normalize .item "Sprite" = "Sprite" :=
  ⟨by decide, (C8_normalize_spec .item " Cola " "Coke").1 (by decide),
   by decide, ((C8_normalize_spec .item "Sprite" "Coke").2).1 (by decide)⟩


/-- Store used for the add_to_cart witnesses: one item with no variant
rows. -/
def wDB9 : DB := ⟨[⟨1, "Water", 5, "bottles", some 2⟩], [], 2⟩

/-- The joined row that add_to_cart resolves for Water in wDB9. -/
def wJR9 : JoinedRow := ⟨⟨1, "Water", 5, "bottles", some 2⟩, none⟩

/-- Claim C9: the success-or-failure class of an add_to_cart call depends
only on the store and the arguments, never on the cart contents, and in
particular two successive calls for the same resolved row both succeed
whenever each requested quantity alone is at most the live stock, with no
check against their sum. -/
theorem C9_cart_independence (db : DB) (c1 c2 : List CartLine)
    (item_name variant : String) (q q1 q2 : Int) :
    resultCase (add_to_cart db c1 item_name q variant).1 =
      resultCase (add_to_cart db c2 item_name q variant).1 ∧
    (∀ jr, resolveCartRow db (mapItemName item_name) (mappedVariantArg variant) =
        some jr →
      q1 ≤ coalQuantity jr → q2 ≤ coalQuantity jr →
      isAdded (add_to_cart db c1 item_name q1 variant).1 = true ∧
      isAdded (add_to_cart db (add_to_cart db c1 item_name q1 variant).2
          item_name q2 variant).1 = true) := by
  constructor
  · cases hres : resolveCartRow db (mapItemName item_name) (mappedVariantArg variant) with
    | none =>
      simp only [add_to_cart, hres]
      split <;> rfl
    | some jr =>
      by_cases hq : coalQuantity jr < q <;>
        simp [add_to_cart, hres, hq, resultCase]
  · intro jr hres h1 h2
    have hn1 : ¬ (coalQuantity jr < q1) := not_lt.mpr h1
    have hn2 : ¬ (coalQuantity jr < q2) := not_lt.mpr h2
    constructor <;> simp [add_to_cart, hres, hn1, hn2, isAdded]

/-- Witness for C9_cart_independence: each of 3 and 4 bottles alone passes
the live-stock check of 5, so both calls succeed although 3 + 4 exceeds
the stock. -/
theorem C9_cart_independence_witness :
    resolveCartRow wDB9 (mapItemName "Water") (mappedVariantArg "") = some wJR9 ∧
    (3 : Int) ≤ coalQuantity wJR9 ∧
    (4 : Int) ≤ coalQuantity wJR9 ∧
    coalQuantity wJR9 < 3 + 4 ∧
    (isAdded (add_to_cart wDB9 [] "Water" 3 "").1 = true ∧
     isAdded (add_to_cart wDB9 (add_to_cart wDB9 [] "Water" 3 "").2
        "Water" 4 "").1 = true) :=
  ⟨by decide, by decide, by decide, by decide,
   (C9_cart_independence wDB9 [] [] "Water" "" 0 3 4).2 wJR9
     (by decide) (by decide) (by decide)⟩

/-- Claim C10: add_to_cart never rejects a non-positive quantity: whenever
the item resolves and the live stock is nonnegative, a request of q at most
0 passes the check, appends a cart line with quantity q and total price q
times the price per unit (nonpositive when the price is nonnegative), and
reports success. -/
theorem C10_nonpositive_quantity (db : DB) (cart : List CartLine)
    (item_name variant : String) (q : Int) (jr : JoinedRow)
    (hres : resolveCartRow db (mapItemName item_name) (mappedVariantArg variant) =
      some jr)
    (hstock : 0 ≤ coalQuantity jr) (hq : q ≤ 0) :
    add_to_cart db cart item_name q variant =
      (.added (mkCartLine jr q)
        (((cart ++ [mkCartLine jr q]).map (fun l => l.total_price)).sum),
       cart ++ [mkCartLine jr q]) ∧
    (mkCartLine jr q).quantity = q ∧
    (mkCartLine jr q).total_price = coalPrice jr * q ∧
    (0 ≤ coalPrice jr → (mkCartLine jr q).total_price ≤ 0) := by
  have hn : ¬ (coalQuantity jr < q) := not_lt.mpr (le_trans hq hstock)
  refine ⟨by simp [add_to_cart, hres, hn], rfl, rfl, ?_⟩
  intro hp
  have hqq : (q : ℚ) ≤ 0 := by exact_mod_cast hq
  show coalPrice jr * (q : ℚ) ≤ 0
  exact mul_nonpos_iff.mpr (Or.inl ⟨hp, hqq⟩)

/-- Witness for C10_nonpositive_quantity: a request of minus two bottles is
accepted and appends a line with quantity minus two. -/
theorem C10_nonpositive_quantity_witness :
    resolveCartRow wDB9 (mapItemName "Water") (mappedVariantArg "") = some wJR9 ∧
    (0 : Int) ≤ coalQuantity wJR9 ∧
    ((-2 : Int) ≤ 0) ∧
    add_to_cart wDB9 [] "Water" (-2) "" =
      (.added (mkCartLine wJR9 (-2))
        (((([] : List CartLine) ++ [mkCartLine wJR9 (-2)]).map
          (fun l => l.total_price)).sum),
       ([] : List CartLine) ++ [mkCartLine wJR9 (-2)]) :=
  ⟨by decide, by decide, by decide,
   (C10_nonpositive_quantity wDB9 [] "Water" "" (-2) wJR9
     (by decide) (by decide) (by decide)).1⟩

end VoiceAssistant
